import Mathlib

/-!
# Verification of the `agnt` conversation/graph-store core

Shallow embedding of the repository's storage layer (`client.go`) and
orchestration layer (`agent.go`, worker goroutine in `makeApp`).

Modelling conventions:
* A bolt bucket is modelled as a `Bucket V`: an association list of
  `(key, record)` pairs kept sorted by key (bolt stores keys in byte order;
  keys here are the 8-byte big-endian encodings produced by `itob`, whose
  byte order coincides with numeric order of the underlying `uint64`),
  together with the bucket's sequence counter (`NextSequence`).
* JSON (de)serialization of records (`json.Marshal` / `json.Unmarshal`)
  is the identity on the typed value domain: buckets store the typed
  records directly.  The textual JSON encoding only matters where a value
  is rendered into a string (tool results), which is modelled by a
  concrete encoder below.
* Go `int` record ids are `Int`; `itob` maps them onto `uint64` keys
  (value mod 2^64) viewed as `Nat`.
* A fallible Go function returning `error` becomes a function into
  `Except DbErr _`; a bolt transaction that returns an error commits
  nothing, so the `.error` result carries no state.
* `map[string]any` values decoded from JSON are modelled by `JVal`;
  a Go type assertion `x.(float64)` / `x.(string)` / `x.(map[string]any)`
  becomes the corresponding partial projection.  JSON numbers are
  modelled as integers (every number occurring in the verified claims is
  integral).
-/

/-- JSON-decoded dynamic value (Go `any` as produced by `encoding/json`). -/
inductive JVal where
  | jnum (n : Int)
  | jstr (s : String)
  | jbool (b : Bool)
  | jnull
  | jarr (xs : List JVal)
  | jobj (fields : List (String × JVal))
  deriving Repr

/-- Go type assertion `.(float64)` on a JSON-decoded value (numbers decode
to `float64`; modelled as `Int`). -/
def JVal.asNum : JVal → Option Int
  | .jnum n => some n
  | _ => none

/-- Go type assertion `.(string)`. -/
def JVal.asStr : JVal → Option String
  | .jstr s => some s
  | _ => none

/-- Go type assertion `.(map[string]any)`. -/
def JVal.asObj : JVal → Option (List (String × JVal))
  | .jobj fs => some fs
  | _ => none

/-- `itob` (client.go): 8-byte big-endian encoding of `uint64(i)`.
Byte-order comparison of the encodings equals numeric comparison of the
`uint64` values, so the key is modelled as that numeric value. -/
def itob (i : Int) : Nat := (i % (2 ^ 64)).toNat

/-- Sorted-association-list lookup: `Bucket.Get`. -/
def getRec {V : Type} (k : Nat) : List (Nat × V) → Option V
  | [] => none
  | (k', v) :: rest => if k = k' then some v else getRec k rest

/-- Sorted-association-list insert/replace: `Bucket.Put` (bolt keeps keys
in sorted order; `Put` replaces the value when the key exists). -/
def putRec {V : Type} (k : Nat) (v : V) : List (Nat × V) → List (Nat × V)
  | [] => [(k, v)]
  | (k', v') :: rest =>
    if k < k' then (k, v) :: (k', v') :: rest
    else if k = k' then (k, v) :: rest
    else (k', v') :: putRec k v rest

/-- `Bucket.Delete`: removes the record at the key, if present. -/
def delRec {V : Type} (k : Nat) : List (Nat × V) → List (Nat × V)
  | [] => []
  | (k', v') :: rest => if k = k' then rest else (k', v') :: delRec k rest

/-- A bolt bucket: sorted records plus its `NextSequence` counter. -/
structure Bucket (V : Type) where
  recs : List (Nat × V)
  seq : Nat
  deriving Repr

/-- `NextSequence` increments the counter and returns the new value
(the first call on a fresh bucket returns 1). -/
def Bucket.nextSequence {V : Type} (b : Bucket V) : Nat × Bucket V :=
  (b.seq + 1, { b with seq := b.seq + 1 })

/-- `ChatInfo` (client.go). -/
structure ChatInfo where
  id : Int
  name : String
  state : String
  deriving Repr

/-- `UserMsg` payload. -/
structure UserPayload where
  text : String
  deriving Repr

/-- `AgentMsg` payload. -/
structure AgentPayload where
  text : String
  deriving Repr

/-- `ToolMsg` payload. -/
structure ToolPayload where
  toolDone : Bool
  toolName : String
  toolArgs : List (String × JVal)
  toolResult : String
  toolError : String
  deriving Repr

/-- `Message` (client.go).  The three payload pointers are nilable in Go;
`none` models a nil pointer. -/
structure Message where
  chatID : Int
  messageID : Int
  mtype : String
  userMsg : Option UserPayload
  agentMsg : Option AgentPayload
  toolMsg : Option ToolPayload
  deriving Repr

/-- `GraphNode` (client.go).  A nil `Props` map is `none`. -/
structure GraphNode where
  id : Int
  type : String
  props : Option (List (String × JVal))
  deriving Repr

/-- `GraphEdge` (client.go). -/
structure GraphEdge where
  id : Int
  type : String
  fromID : Int
  toID : Int
  deriving Repr

/-- `EdgeFilter` (client.go): zero values mean "unset". -/
structure EdgeFilter where
  type : String
  fromID : Int
  toID : Int
  deriving Repr

/-- The distinct `error` returns of the storage layer (client.go), one
constructor per `fmt.Errorf` site reachable in the model.  Bucket-missing
errors for the fixed top-level buckets (`chats`, `graph:nodes`,
`graph:edges`) are unreachable: those buckets are created at first-run
initialization and never deleted, so the model's `Store` always carries
them; only per-chat message buckets can be absent. -/
inductive DbErr where
  | invalidState (s : String)
  | chatNotFound (id : Int)
  | msgBucketNotFound
  | messageNotFound
  | nodeNotFound (id : Int)
  | edgeNotFound (id : Int)
  | sourceNodeNotFound
  | targetNodeNotFound
  deriving Repr, DecidableEq

/-- The post-initialization database: the chat index bucket, the per-chat
message buckets (keyed by `itob chatID`, present only for created chats),
and the two graph buckets. -/
structure Store where
  chats : Bucket ChatInfo
  messages : List (Nat × Bucket Message)
  nodes : Bucket GraphNode
  edges : Bucket GraphEdge
  deriving Repr

/-- `UpdateChatState` (client.go): validates the state value, then loads,
mutates and rewrites the chat record inside one write transaction. -/
def updateChatState (s : Store) (chatID : Int) (state : String) :
    Except DbErr Store :=
  if state ≠ "idle" ∧ state ≠ "running" then
    .error (.invalidState state)
  else
    match getRec (itob chatID) s.chats.recs with
    | none => .error (.chatNotFound chatID)
    | some ci =>
      let ci' : ChatInfo := { ci with state := state }
      .ok { s with chats := { s.chats with
              recs := putRec (itob ci'.id) ci' s.chats.recs } }

/-- `ListMessages` (client.go): cursor scan of the chat's message bucket. -/
def listMessages (s : Store) (chatID : Int) : Except DbErr (List Message) :=
  match getRec (itob chatID) s.messages with
  | none => .error .msgBucketNotFound
  | some b => .ok (b.recs.map Prod.snd)

/-- `CreateMessage` (client.go): assigns the message id from the chat
bucket's own sequence and stores the record under `itob` of that id. -/
def createMessage (s : Store) (msg : Message) :
    Except DbErr (Store × Message) :=
  match getRec (itob msg.chatID) s.messages with
  | none => .error .msgBucketNotFound
  | some b =>
    let (id, b') := b.nextSequence
    let msg' : Message := { msg with messageID := Int.ofNat id }
    let b'' : Bucket Message :=
      { b' with recs := putRec (itob msg'.messageID) msg' b'.recs }
    .ok ({ s with messages := putRec (itob msg.chatID) b'' s.messages }, msg')

/-- `GetMessage` (client.go). -/
def getMessage (s : Store) (cid mid : Int) : Except DbErr Message :=
  match getRec (itob cid) s.messages with
  | none => .error .msgBucketNotFound
  | some b =>
    match getRec (itob mid) b.recs with
    | none => .error .messageNotFound
    | some m => .ok m

/-- `UpdateMessage` (client.go): unconditional `Put` at `itob msg.messageID`
(no existence check on the message id). -/
def updateMessage (s : Store) (msg : Message) : Except DbErr Store :=
  match getRec (itob msg.chatID) s.messages with
  | none => .error .msgBucketNotFound
  | some b =>
    let b' : Bucket Message :=
      { b with recs := putRec (itob msg.messageID) msg b.recs }
    .ok { s with messages := putRec (itob msg.chatID) b' s.messages }

/-- `GetNode` (client.go). -/
def getNode (s : Store) (id : Int) : Except DbErr GraphNode :=
  match getRec (itob id) s.nodes.recs with
  | none => .error (.nodeNotFound id)
  | some n => .ok n

/-- `ListNodes` (client.go): cursor scan with the optional type filter
(empty string means "no filter"). -/
def listNodes (s : Store) (nodeType : String) : List GraphNode :=
  (s.nodes.recs.map Prod.snd).filter
    (fun n => !(nodeType ≠ "" ∧ n.type ≠ nodeType : Bool))

/-- `CreateNode` (client.go): fresh id from the node bucket sequence. -/
def createNode (s : Store) (nodeType : String)
    (props : Option (List (String × JVal))) : Store × GraphNode :=
  let (id, b) := s.nodes.nextSequence
  let node : GraphNode := { id := Int.ofNat id, type := nodeType, props := props }
  ({ s with nodes := { b with recs := putRec (itob node.id) node b.recs } }, node)

/-- `DeleteNode` (client.go): deletes the node record, then cursor-scans the
edge bucket deleting every edge incident to the id (deleting the key under
the cursor and moving on is the same as filtering those records out). -/
def deleteNode (s : Store) (id : Int) : Store :=
  { s with
    nodes := { s.nodes with recs := delRec (itob id) s.nodes.recs },
    edges := { s.edges with
      recs := s.edges.recs.filter
        (fun kv => !(kv.2.fromID = id ∨ kv.2.toID = id : Bool)) } }

/-- `GetEdge` (client.go). -/
def getEdge (s : Store) (id : Int) : Except DbErr GraphEdge :=
  match getRec (itob id) s.edges.recs with
  | none => .error (.edgeNotFound id)
  | some e => .ok e

/-- `ListEdges` (client.go): cursor scan with the three optional filters;
a zero value (`""` / `0`) leaves the corresponding filter unset. -/
def listEdges (s : Store) (f : EdgeFilter) : List GraphEdge :=
  (s.edges.recs.map Prod.snd).filter (fun e =>
    !((f.type ≠ "" ∧ e.type ≠ f.type) ∨
      (f.fromID ≠ 0 ∧ e.fromID ≠ f.fromID) ∨
      (f.toID ≠ 0 ∧ e.toID ≠ f.toID) : Bool))

/-- `CreateEdge` (client.go): checks both endpoints exist before drawing a
fresh id from the edge bucket sequence and persisting. -/
def createEdge (s : Store) (edgeType : String) (fromID toID : Int) :
    Except DbErr (Store × GraphEdge) :=
  match getRec (itob fromID) s.nodes.recs, getRec (itob toID) s.nodes.recs with
  | none, _ => .error .sourceNodeNotFound
  | some _, none => .error .targetNodeNotFound
  | some _, some _ =>
    let (id, b) := s.edges.nextSequence
    let edge : GraphEdge :=
      { id := Int.ofNat id, type := edgeType, fromID := fromID, toID := toID }
    .ok ({ s with edges := { b with recs := putRec (itob edge.id) edge b.recs } },
         edge)

/-- `DeleteEdge` (client.go): unconditional delete by id. -/
def deleteEdge (s : Store) (id : Int) : Store :=
  { s with edges := { s.edges with recs := delRec (itob id) s.edges.recs } }

/-- Transaction-abort semantics of a failed `CreateEdge` call: a bolt write
transaction that returns an error commits nothing, so the caller observes
the original store. -/
def createEdgeRun (s : Store) (edgeType : String) (fromID toID : Int) :
    Store × Except DbErr GraphEdge :=
  match createEdge s edgeType fromID toID with
  | .error e => (s, .error e)
  | .ok (s', edge) => (s', .ok edge)

/-! ## Orchestrator (agent.go) -/

/-- One content block of a provider-format conversation turn
(anthropic content blocks). -/
inductive TBlock where
  | text (s : String)
  | toolUse (id : String) (name : String) (input : List (String × JVal))
  | toolResult (toolUseID : String) (isError : Bool) (content : String)
  deriving Repr

/-- One provider-format conversation turn (`anthropic.MessageParam`):
a role plus content blocks. -/
structure Turn where
  role : String
  blocks : List TBlock
  deriving Repr

/-- The distinct failures of `getChatHistory` (agent.go): a storage error
from `ListMessages`, a nil payload dereference for the message kind (a Go
panic, modelled as an error value), or an unknown message type. -/
inductive HistErr where
  | store (e : DbErr)
  | nilPayload
  | unknownMType (t : String)
  deriving Repr, DecidableEq

/-- The body of the translation loop of `getChatHistory` (agent.go) for one
stored message (the Go `switch m.MType`, modelled as the equivalent
sequential comparison chain).  A `tool` message contributes an assistant
turn with a tool-use block (id `"tool_" ++ messageID`) and, when
`ToolError` or `ToolResult` is non-empty, a user turn with the matching
tool-result block (error text wins and sets the error flag). -/
def msgTurns (m : Message) : Except HistErr (List Turn) :=
  if m.mtype = "user" then
    match m.userMsg with
    | none => .error .nilPayload
    | some u => .ok [⟨"user", [.text u.text]⟩]
  else if m.mtype = "agent" then
    match m.agentMsg with
    | none => .error .nilPayload
    | some a => .ok [⟨"assistant", [.text a.text]⟩]
  else if m.mtype = "tool" then
    match m.toolMsg with
    | none => .error .nilPayload
    | some tm =>
      let toolUseID := "tool_" ++ toString m.messageID
      let callTurn : Turn :=
        ⟨"assistant", [.toolUse toolUseID tm.toolName tm.toolArgs]⟩
      if tm.toolError ≠ "" ∨ tm.toolResult ≠ "" then
        let resultContent :=
          if tm.toolError ≠ "" then tm.toolError else tm.toolResult
        let isError : Bool := tm.toolError ≠ ""
        .ok [callTurn, ⟨"user", [.toolResult toolUseID isError resultContent]⟩]
      else
        .ok [callTurn]
  else .error (.unknownMType m.mtype)

/-- The translation loop of `getChatHistory` (agent.go): appends each
message's turns in message order, stopping at the first failure. -/
def historyTurns : List Message → Except HistErr (List Turn)
  | [] => .ok []
  | m :: rest =>
    match msgTurns m with
    | .error e => .error e
    | .ok ts =>
      match historyTurns rest with
      | .error e => .error e
      | .ok rs => .ok (ts ++ rs)

/-- `getChatHistory` (agent.go): `ListMessages` then the translation loop. -/
def getChatHistory (s : Store) (cid : Int) : Except HistErr (List Turn) :=
  match listMessages s cid with
  | .error e => .error (.store e)
  | .ok ms => historyTurns ms

/-- The `result any` value a tool handler produces before JSON encoding
(agent.go `handleToolCall`). -/
inductive ToolOut where
  | node (n : GraphNode)
  | nodes (ns : List GraphNode)
  | edge (e : GraphEdge)
  | edges (es : List GraphEdge)
  | success
  deriving Repr

/-- JSON string literal (escaping of special characters elided; no claim
inspects encoded text beyond emptiness). -/
def jstrEnc (s : String) : String := "\"" ++ s ++ "\""

mutual

/-- `json.Marshal` of a dynamic value. -/
def jvalEnc : JVal → String
  | .jnum n => toString n
  | .jstr s => jstrEnc s
  | .jbool b => if b then "true" else "false"
  | .jnull => "null"
  | .jarr xs => "[" ++ jvalEncList xs ++ "]"
  | .jobj fs => "\x7b" ++ jvalEncFields fs ++ "\x7d"

def jvalEncList : List JVal → String
  | [] => ""
  | [x] => jvalEnc x
  | x :: xs => jvalEnc x ++ "," ++ jvalEncList xs

def jvalEncFields : List (String × JVal) → String
  | [] => ""
  | [f] => jstrEnc f.1 ++ ":" ++ jvalEnc f.2
  | f :: fs => jstrEnc f.1 ++ ":" ++ jvalEnc f.2 ++ "," ++ jvalEncFields fs

end

/-- `json.Marshal` of a nilable `map[string]any`. -/
def propsEnc : Option (List (String × JVal)) → String
  | none => "null"
  | some fs => jvalEnc (.jobj fs)

/-- `json.Marshal` of a `GraphNode`. -/
def nodeEnc (n : GraphNode) : String :=
  "\x7b\"ID\":" ++ toString n.id ++ ",\"Type\":" ++ jstrEnc n.type ++
    ",\"Props\":" ++ propsEnc n.props ++ "\x7d"

/-- `json.Marshal` of a `GraphEdge`. -/
def edgeEnc (e : GraphEdge) : String :=
  "\x7b\"ID\":" ++ toString e.id ++ ",\"Type\":" ++ jstrEnc e.type ++
    ",\"FromID\":" ++ toString e.fromID ++ ",\"ToID\":" ++ toString e.toID ++ "\x7d"

/-- `json.Marshal` of a handler result (`json.Marshal` cannot fail on these
values, so the encoder is total and the "failed to encode result" branch of
`handleToolCall` is unreachable). -/
def toolOutEnc : ToolOut → String
  | .node n => nodeEnc n
  | .nodes ns => "[" ++ String.intercalate "," (ns.map nodeEnc) ++ "]"
  | .edge e => edgeEnc e
  | .edges es => "[" ++ String.intercalate "," (es.map edgeEnc) ++ "]"
  | .success => "\x7b\"success\":true\x7d"

/-- `err.Error()` for the storage errors that tool dispatch can surface
into `ToolError`, rendering the `fmt.Errorf` wrapping chain of the
corresponding repository method (quote characters in the Go text elided). -/
def DbErr.message : DbErr → String
  | .invalidState s => "invalid state: " ++ s ++ " (must be idle or running)"
  | .chatNotFound id => "chat not found: " ++ toString id
  | .msgBucketNotFound => "chat messages bucket not found"
  | .messageNotFound => "failed to get message: message not found"
  | .nodeNotFound id =>
    "failed to get node: node with ID " ++ toString id ++ " not found"
  | .edgeNotFound id =>
    "failed to get edge: edge with ID " ++ toString id ++ " not found"
  | .sourceNodeNotFound => "failed to create edge: source node not found"
  | .targetNodeNotFound => "failed to create edge: target node not found"

/-- The `error` returns of `handleToolCall` (agent.go) that are raised to
its caller: a non-tool message, a failed argument type assertion
(`"invalid <name> parameter"`), an unknown tool name, or a failed
`UpdateMessage` while persisting the outcome. -/
inductive ToolCallErr where
  | notToolMessage
  | invalidParam (name : String)
  | unknownTool (name : String)
  | store (e : DbErr)
  deriving Repr, DecidableEq

/-- The per-tool dispatch switch of `handleToolCall` (agent.go): validates
argument types, runs the repository call, and yields the updated store
plus either the handler result or the repository error.  Validation and
unknown-tool failures are raised (`Except.error`), exactly as the Go code
returns them without touching the message record. -/
def dispatchTool (s : Store) (tm : ToolPayload) :
    Except ToolCallErr (Store × Except DbErr ToolOut) :=
  if tm.toolName = "get_node" then
    match (tm.toolArgs.lookup "id").bind JVal.asNum with
    | none => .error (.invalidParam "id")
    | some id => .ok (s, (getNode s id).map ToolOut.node)
  else if tm.toolName = "list_nodes" then
    let nodeType := ((tm.toolArgs.lookup "node_type").bind JVal.asStr).getD ""
    .ok (s, .ok (.nodes (listNodes s nodeType)))
  else if tm.toolName = "create_node" then
    match (tm.toolArgs.lookup "type").bind JVal.asStr with
    | none => .error (.invalidParam "type")
    | some typ =>
      let props := (tm.toolArgs.lookup "props").bind JVal.asObj
      let sn := createNode s typ props
      .ok (sn.1, .ok (.node sn.2))
  else if tm.toolName = "delete_node" then
    match (tm.toolArgs.lookup "id").bind JVal.asNum with
    | none => .error (.invalidParam "id")
    | some id => .ok (deleteNode s id, .ok .success)
  else if tm.toolName = "get_edge" then
    match (tm.toolArgs.lookup "id").bind JVal.asNum with
    | none => .error (.invalidParam "id")
    | some id => .ok (s, (getEdge s id).map ToolOut.edge)
  else if tm.toolName = "list_edges" then
    let f : EdgeFilter :=
      { type := ((tm.toolArgs.lookup "type").bind JVal.asStr).getD ""
        fromID := ((tm.toolArgs.lookup "from_id").bind JVal.asNum).getD 0
        toID := ((tm.toolArgs.lookup "to_id").bind JVal.asNum).getD 0 }
    .ok (s, .ok (.edges (listEdges s f)))
  else if tm.toolName = "create_edge" then
    match (tm.toolArgs.lookup "type").bind JVal.asStr with
    | none => .error (.invalidParam "type")
    | some typ =>
      match (tm.toolArgs.lookup "from_id").bind JVal.asNum with
      | none => .error (.invalidParam "from_id")
      | some fromID =>
        match (tm.toolArgs.lookup "to_id").bind JVal.asNum with
        | none => .error (.invalidParam "to_id")
        | some toID =>
          match createEdge s typ fromID toID with
          | .error e => .ok (s, .error e)
          | .ok se => .ok (se.1, .ok (.edge se.2))
  else if tm.toolName = "delete_edge" then
    match (tm.toolArgs.lookup "id").bind JVal.asNum with
    | none => .error (.invalidParam "id")
    | some id => .ok (deleteEdge s id, .ok .success)
  else .error (.unknownTool tm.toolName)

/-- `handleToolCall` (agent.go): rejects non-tool messages, marks the
payload done, dispatches, then persists the outcome — a repository error
into `ToolError` (via `err.Error()`), a result into `ToolResult` as its
JSON encoding — through `UpdateMessage`.  Raised dispatch errors leave the
message unpersisted. -/
def handleToolCall (s : Store) (m : Message) :
    Except ToolCallErr (Store × Message) :=
  if m.mtype ≠ "tool" then .error .notToolMessage
  else
    match m.toolMsg with
    | none => .error .notToolMessage
    | some tm0 =>
      let tm : ToolPayload := { tm0 with toolDone := true }
      match dispatchTool s tm with
      | .error e => .error e
      | .ok (s1, .error repoErr) =>
        let m' : Message :=
          { m with toolMsg := some { tm with toolError := repoErr.message } }
        match updateMessage s1 m' with
        | .error e => .error (.store e)
        | .ok s2 => .ok (s2, m')
      | .ok (s1, .ok out) =>
        let m' : Message :=
          { m with toolMsg := some { tm with toolResult := toolOutEnc out } }
        match updateMessage s1 m' with
        | .error e => .error (.store e)
        | .ok s2 => .ok (s2, m')

/-- One content block of a provider response (`resp.Content`). -/
inductive CBlock where
  | text (s : String)
  | toolUse (name : String) (input : List (String × JVal))
  deriving Repr

/-- The provider interaction of one `generate` call, as an oracle: either
the transport fails (`a.ac.Messages.New` returns an error) or a complete
response with its content blocks arrives. -/
inductive ProviderResult where
  | transportError
  | content (blocks : List CBlock)
  deriving Repr

/-- The `error` returns of `generate` (agent.go), one constructor per
`fmt.Errorf` wrapping site. -/
inductive GenErr where
  | history (e : HistErr)
  | transport
  | createMsg (e : DbErr)
  | toolCall (e : ToolCallErr)
  deriving Repr, DecidableEq

/-- The response-classification loop of `generate` (agent.go):
concatenates the text blocks and keeps the last tool-use block. -/
def classifyBlocks (blocks : List CBlock) :
    String × Option (String × List (String × JVal)) :=
  blocks.foldl
    (fun acc b =>
      match b with
      | .text t => (acc.1 ++ t, acc.2)
      | .toolUse n input => (acc.1, some (n, input)))
    ("", none)

/-- `generate` (agent.go): read and translate the history, consult the
provider, classify the response into a `tool` or `agent` message, persist
it with `CreateMessage`, and if it is a tool message run `handleToolCall`
(whose raised errors are wrapped and propagated to the caller, aborting
the round).  The result pairs the store — each completed write transaction
stays committed even when a later step of the round fails, exactly as the
shared bolt database behaves — with the round's outcome.  The `onupdate`
UI callback has no effect on the store and is omitted. -/
def generate (s : Store) (cid : Int) (pr : ProviderResult) :
    Store × Except GenErr Message :=
  match getChatHistory s cid with
  | .error e => (s, .error (.history e))
  | .ok _h =>
    match pr with
    | .transportError => (s, .error .transport)
    | .content blocks =>
      let cls := classifyBlocks blocks
      let m : Message :=
        match cls.2 with
        | some nargs =>
          { chatID := cid, messageID := 0, mtype := "tool",
            userMsg := none, agentMsg := none,
            toolMsg := some { toolDone := false, toolName := nargs.1,
                              toolArgs := nargs.2, toolResult := "",
                              toolError := "" } }
        | none =>
          { chatID := cid, messageID := 0, mtype := "agent",
            userMsg := none, agentMsg := some { text := cls.1 },
            toolMsg := none }
      match createMessage s m with
      | .error e => (s, .error (.createMsg e))
      | .ok (s1, m1) =>
        if m1.mtype = "tool" then
          match handleToolCall s1 m1 with
          | .error e => (s1, .error (.toolCall e))
          | .ok (s2, m2) => (s2, .ok m2)
        else
          (s1, .ok m1)

/-- Specification-side (claim C5): a stored message is well-formed when
its payload matches its kind and, for a `tool` message, `done` is set and
exactly one of `tool_result`/`tool_error` is non-empty. -/
def validMsg (m : Message) : Bool :=
  if m.mtype = "user" then m.userMsg.isSome
  else if m.mtype = "agent" then m.agentMsg.isSome
  else if m.mtype = "tool" then
    match m.toolMsg with
    | none => false
    | some tm => tm.toolDone && ((tm.toolError == "") != (tm.toolResult == ""))
  else false

/-- Specification-side (claim C5): the per-message translation contract —
`user` maps to one user turn, `agent` to one assistant turn, and `tool` to
exactly two consecutive turns in fixed order: an assistant function-call
turn carrying the tool name and arguments, immediately followed by a
function-result turn carrying the result, or the error text with the
error flag.  (Messages outside the claim's hypotheses map to `[]`.) -/
def specMsgTurns (m : Message) : List Turn :=
  if m.mtype = "user" then
    match m.userMsg with
    | none => []
    | some u => [⟨"user", [.text u.text]⟩]
  else if m.mtype = "agent" then
    match m.agentMsg with
    | none => []
    | some a => [⟨"assistant", [.text a.text]⟩]
  else if m.mtype = "tool" then
    match m.toolMsg with
    | none => []
    | some tm =>
      [⟨"assistant",
        [.toolUse ("tool_" ++ toString m.messageID) tm.toolName tm.toolArgs]⟩,
       ⟨"user",
        [.toolResult ("tool_" ++ toString m.messageID)
          (decide (tm.toolError ≠ ""))
          (if tm.toolError ≠ "" then tm.toolError else tm.toolResult)]⟩]
  else []

/-- Specification-side (claim C3): the argument-schema table of spec §4.4 —
the dispatch error arising from a missing required argument or a wrong
primitive type (checked in the dispatcher's order), or from a tool name
outside the catalogue; `none` when the arguments pass validation. -/
def requiredArgViolation (tm : ToolPayload) : Option ToolCallErr :=
  if tm.toolName = "get_node" ∨ tm.toolName = "delete_node" ∨
     tm.toolName = "get_edge" ∨ tm.toolName = "delete_edge" then
    match (tm.toolArgs.lookup "id").bind JVal.asNum with
    | none => some (.invalidParam "id")
    | some _ => none
  else if tm.toolName = "list_nodes" ∨ tm.toolName = "list_edges" then none
  else if tm.toolName = "create_node" then
    match (tm.toolArgs.lookup "type").bind JVal.asStr with
    | none => some (.invalidParam "type")
    | some _ => none
  else if tm.toolName = "create_edge" then
    match (tm.toolArgs.lookup "type").bind JVal.asStr with
    | none => some (.invalidParam "type")
    | some _ =>
      match (tm.toolArgs.lookup "from_id").bind JVal.asNum with
      | none => some (.invalidParam "from_id")
      | some _ =>
        match (tm.toolArgs.lookup "to_id").bind JVal.asNum with
        | none => some (.invalidParam "to_id")
        | some _ => none
  else some (.unknownTool tm.toolName)

/-- The error slot of the completion notification (`GenerateResponse` in
agent.go): either the generation error or, failing that, the error of the
final chat-state update in the worker loop. -/
inductive RoundErr where
  | gen (e : GenErr)
  | state (e : DbErr)
  deriving Repr, DecidableEq

/-- `GenerateResponse` (agent.go), as sent by the worker goroutine. -/
structure GenerateResponse where
  chatID : Int
  error : Option RoundErr
  deriving Repr

/-- One iteration of the worker goroutine in `makeApp` (main command):
set the chat state to `running` (on failure, send the error and skip the
round), run `generate`, set the state back to `idle` on every exit path
(a state-update error replaces a nil generation error), then send the
completion notification. -/
def workerRound (s : Store) (cid : Int) (pr : ProviderResult) :
    Store × GenerateResponse :=
  match updateChatState s cid "running" with
  | .error e => (s, { chatID := cid, error := some (.state e) })
  | .ok s1 =>
    let step : Store × Option RoundErr :=
      match generate s1 cid pr with
      | (s', .error e) => (s', some (.gen e))
      | (s', .ok _m) => (s', none)
    match updateChatState step.1 cid "idle" with
    | .error e2 =>
      (step.1, { chatID := cid,
                 error := some (match step.2 with
                                | some g => g
                                | none => .state e2) })
    | .ok s3 => (s3, { chatID := cid, error := step.2 })

/-! ## Concrete values for witnesses -/

/-- Sample node 1. -/
def wNode1 : GraphNode := { id := 1, type := "person", props := none }

/-- Sample node 2. -/
def wNode2 : GraphNode := { id := 2, type := "document", props := none }

/-- Sample edge from node 1 to node 2. -/
def wEdge1 : GraphEdge := { id := 1, type := "knows", fromID := 1, toID := 2 }

/-- Sample chat record. -/
def wChat : ChatInfo := { id := 1, name := "c1", state := "idle" }

/-- Sample stored user message. -/
def wUserMsg : Message :=
  { chatID := 1, messageID := 1, mtype := "user",
    userMsg := some { text := "hello" }, agentMsg := none, toolMsg := none }

/-- Sample stored agent message. -/
def wAgentMsg : Message :=
  { chatID := 1, messageID := 2, mtype := "agent",
    userMsg := none, agentMsg := some { text := "hi" }, toolMsg := none }

/-- Sample stored finished tool message. -/
def wToolMsg : Message :=
  { chatID := 1, messageID := 3, mtype := "tool",
    userMsg := none, agentMsg := none,
    toolMsg := some { toolDone := true, toolName := "get_node",
                      toolArgs := [("id", .jnum 1)],
                      toolResult := nodeEnc wNode1, toolError := "" } }

/-- Sample post-initialization store: one chat with three messages, two
nodes and one edge between them. -/
def wStore : Store :=
  { chats := { recs := [(1, wChat)], seq := 1 }
    messages := [(1, { recs := [(1, wUserMsg), (2, wAgentMsg), (3, wToolMsg)],
                       seq := 3 })]
    nodes := { recs := [(1, wNode1), (2, wNode2)], seq := 2 }
    edges := { recs := [(1, wEdge1)], seq := 1 } }

/-- A fresh message value to create (the store will assign its id). -/
def wNewMsg : Message :=
  { chatID := 1, messageID := 99, mtype := "user",
    userMsg := some { text := "again" }, agentMsg := none, toolMsg := none }

/-! ## Helper lemmas on the bucket model -/

theorem getRec_putRec_self {V : Type} (k : Nat) (v : V) (l : List (Nat × V)) :
    getRec k (putRec k v l) = some v := by
  induction l with
  | nil => simp [putRec, getRec]
  | cons kv rest ih =>
    obtain ⟨k', v'⟩ := kv
    by_cases h1 : k < k'
    · simp [putRec, h1, getRec]
    · by_cases h2 : k = k'
      · simp [putRec, h1, h2, getRec]
      · simp [putRec, h1, h2, getRec, ih]

theorem getRec_putRec_ne {V : Type} {k k' : Nat} (v : V) (l : List (Nat × V))
    (h : k ≠ k') : getRec k (putRec k' v l) = getRec k l := by
  induction l with
  | nil => simp [putRec, getRec, h]
  | cons kv rest ih =>
    obtain ⟨k'', v''⟩ := kv
    by_cases h1 : k' < k''
    · simp [putRec, h1, getRec, h]
    · by_cases h2 : k' = k''
      · subst h2; simp [putRec, h1, getRec, h]
      · simp [putRec, h1, h2, getRec, ih]

/-! ## Claim theorems -/

/-- C1: for every store and every node id (node ids are sequence-assigned
starting at 1, and `0` is the `EdgeFilter` sentinel for "unset", so a node
id is never `0`), after `deleteNode id` the queries `listEdges` filtered by
`from_id = id` and by `to_id = id` both return the empty sequence: the
cascade deletes, in the same transaction, every edge whose `FromID` or
`ToID` equals the deleted id. -/
theorem deleteNode_cascade_clears_edges (s : Store) (id : Int) (h : id ≠ 0) :
    listEdges (deleteNode s id) { type := "", fromID := id, toID := 0 } = [] ∧
    listEdges (deleteNode s id) { type := "", fromID := 0, toID := id } = [] := by
  constructor <;>
  · unfold listEdges deleteNode
    simp only [List.filter_map, List.filter_filter, List.map_eq_nil_iff]
    rw [List.filter_eq_nil_iff]
    intro kv hkv
    simp only [Function.comp, Bool.and_eq_true, Bool.not_eq_true',
      decide_eq_false_iff_not]
    push_neg
    intro h1
    first
    | exact h1.2.1 h
    | exact h1.2.2 h
    | exact Or.inl (h1.2.1 h)
    | exact Or.inr (h1.2.2 h)

/-- Witness for C1 at the sample store and node id 1. -/
theorem deleteNode_cascade_clears_edges_witness :
    (1 : Int) ≠ 0 ∧
    (listEdges (deleteNode wStore 1) { type := "", fromID := 1, toID := 0 } = [] ∧
     listEdges (deleteNode wStore 1) { type := "", fromID := 0, toID := 1 } = []) :=
  ⟨by decide, deleteNode_cascade_clears_edges wStore 1 (by decide)⟩

/-- Keys of a bucket never exceed its sequence counter, so the next
sequence value is a fresh key. -/
theorem getRec_gt_none {V : Type} (l : List (Nat × V)) (n : Nat)
    (hb : ∀ kv ∈ l, kv.1 ≤ n) : getRec (n + 1) l = none := by
  induction l with
  | nil => rfl
  | cons kv rest ih =>
    have h1 := hb kv (by simp)
    have hne : n + 1 ≠ kv.1 := by omega
    simp only [getRec, if_neg hne]
    exact ih (fun kv' h' => hb kv' (by simp [h']))

/-- `itob` is the identity on in-range sequence-assigned ids. -/
theorem itob_ofNat (n : Nat) (h : n < 2 ^ 64) : itob (Int.ofNat n) = n := by
  unfold itob
  have h1 : Int.ofNat n % 2 ^ 64 = Int.ofNat n := by
    apply Int.emod_eq_of_lt (Int.ofNat_nonneg n)
    exact Int.ofNat_lt.mpr h
  rw [h1]
  rfl

/-- C2: `createEdge` returns the source/target reference error when the
`from`/`to` node is missing, and the aborted transaction leaves the store
(in particular the edge partition and its sequence) unchanged; when both
endpoints exist it assigns the fresh next-sequence id (fresh: not a key of
any committed edge record) and persists the edge. -/
theorem createEdge_endpoint_validation (s : Store) (t : String)
    (fromID toID : Int) :
    (getRec (itob fromID) s.nodes.recs = none →
      createEdgeRun s t fromID toID = (s, .error .sourceNodeNotFound)) ∧
    (∀ nf, getRec (itob fromID) s.nodes.recs = some nf →
      getRec (itob toID) s.nodes.recs = none →
      createEdgeRun s t fromID toID = (s, .error .targetNodeNotFound)) ∧
    (∀ nf nt, getRec (itob fromID) s.nodes.recs = some nf →
      getRec (itob toID) s.nodes.recs = some nt →
      (∀ kv ∈ s.edges.recs, kv.1 ≤ s.edges.seq) → s.edges.seq + 1 < 2 ^ 64 →
      ∃ s' e, createEdge s t fromID toID = .ok (s', e) ∧
        e = { id := Int.ofNat (s.edges.seq + 1), type := t,
              fromID := fromID, toID := toID } ∧
        getRec (itob e.id) s.edges.recs = none ∧
        getEdge s' e.id = .ok e) := by
  refine ⟨fun hf => ?_, fun nf hf ht => ?_, fun nf nt hf ht hb hlt => ?_⟩
  · unfold createEdgeRun createEdge
    rw [hf]
  · unfold createEdgeRun createEdge
    rw [hf, ht]
  · unfold createEdge
    rw [hf, ht]
    refine ⟨_, _, rfl, rfl, ?_, ?_⟩
    · rw [itob_ofNat _ hlt]
      exact getRec_gt_none _ _ hb
    · unfold getEdge
      simp [getRec_putRec_self]

/-- Witness for C2 at the sample store: node 3 is absent, nodes 1 and 2
exist. -/
theorem createEdge_endpoint_validation_witness :
    createEdgeRun wStore "rel" 3 1 = (wStore, .error .sourceNodeNotFound) ∧
    createEdgeRun wStore "rel" 1 3 = (wStore, .error .targetNodeNotFound) ∧
    (∃ s' e, createEdge wStore "rel" 1 2 = .ok (s', e) ∧
      e = { id := Int.ofNat (wStore.edges.seq + 1), type := "rel",
            fromID := 1, toID := 2 } ∧
      getRec (itob e.id) wStore.edges.recs = none ∧
      getEdge s' e.id = .ok e) :=
  ⟨(createEdge_endpoint_validation wStore "rel" 3 1).1 rfl,
   (createEdge_endpoint_validation wStore "rel" 1 3).2.1 wNode1 rfl rfl,
   (createEdge_endpoint_validation wStore "rel" 1 2).2.2 wNode1 wNode2 rfl rfl
     (by decide) (by show 1 + 1 < 2 ^ 64; norm_num)⟩

/-- C6: `updateChatState` rejects any state value outside
`{idle, running}` with the invalid-state error before touching the store;
with a valid state it fails with the not-found error when the chat record
is absent; and when the chat exists it persists the new state, leaving the
chat's id and name unchanged. -/
theorem updateChatState_validation (s : Store) (chatID : Int) (st : String) :
    (st ≠ "idle" → st ≠ "running" →
      updateChatState s chatID st = .error (.invalidState st)) ∧
    ((st = "idle" ∨ st = "running") →
      getRec (itob chatID) s.chats.recs = none →
      updateChatState s chatID st = .error (.chatNotFound chatID)) ∧
    (∀ ci, (st = "idle" ∨ st = "running") →
      getRec (itob chatID) s.chats.recs = some ci → ci.id = chatID →
      ∃ s', updateChatState s chatID st = .ok s' ∧
        getRec (itob chatID) s'.chats.recs =
          some { id := ci.id, name := ci.name, state := st }) := by
  refine ⟨fun h1 h2 => ?_, fun hv habs => ?_, fun ci hv hc hid => ?_⟩
  · unfold updateChatState
    rw [if_pos ⟨h1, h2⟩]
  · unfold updateChatState
    rw [if_neg (by tauto), habs]
  · unfold updateChatState
    rw [if_neg (by tauto), hc]
    refine ⟨_, rfl, ?_⟩
    simp only [← hid, getRec_putRec_self]

/-- Witness for C6 at the sample store: an invalid state value, a missing
chat id, and a successful update. -/
theorem updateChatState_validation_witness :
    updateChatState wStore 1 "bogus" = .error (.invalidState "bogus") ∧
    updateChatState wStore 7 "running" = .error (.chatNotFound 7) ∧
    (∃ s', updateChatState wStore 1 "running" = .ok s' ∧
      getRec (itob 1) s'.chats.recs =
        some { id := 1, name := "c1", state := "running" }) :=
  ⟨(updateChatState_validation wStore 1 "bogus").1 (by decide) (by decide),
   (updateChatState_validation wStore 7 "running").2.1 (Or.inr rfl) rfl,
   (updateChatState_validation wStore 1 "running").2.2 wChat (Or.inr rfl)
     rfl rfl⟩

/-- C7: for every message value whose chat's message partition exists,
`createMessage` followed by `getMessage` at the returned id yields a
record equal to the input in every field except the assigned message id. -/
theorem createMessage_getMessage_roundtrip (s : Store) (m : Message)
    (b : Bucket Message)
    (hb : getRec (itob m.chatID) s.messages = some b) :
    ∃ s' m', createMessage s m = .ok (s', m') ∧
      m' = { m with messageID := Int.ofNat (b.seq + 1) } ∧
      getMessage s' m.chatID m'.messageID = .ok m' := by
  unfold createMessage
  rw [hb]
  refine ⟨_, _, rfl, rfl, ?_⟩
  unfold getMessage
  simp only [getRec_putRec_self]

/-- Witness for C7 at the sample store. -/
theorem createMessage_getMessage_roundtrip_witness :
    ∃ s' m', createMessage wStore wNewMsg = .ok (s', m') ∧
      m' = { wNewMsg with messageID := Int.ofNat 4 } ∧
      getMessage s' wNewMsg.chatID m'.messageID = .ok m' :=
  createMessage_getMessage_roundtrip wStore wNewMsg
    { recs := [(1, wUserMsg), (2, wAgentMsg), (3, wToolMsg)], seq := 3 } rfl

/-- C10: `updateMessage` performs no existence check on the target message
id: with the chat's message partition present and no record stored at
`m.messageID`, it still succeeds and inserts the record there (upsert),
rather than failing with a not-found error. -/
theorem updateMessage_upsert (s : Store) (m : Message) (b : Bucket Message)
    (hb : getRec (itob m.chatID) s.messages = some b)
    (habs : getRec (itob m.messageID) b.recs = none) :
    ∃ s', updateMessage s m = .ok s' ∧
      getMessage s' m.chatID m.messageID = .ok m := by
  clear habs
  unfold updateMessage
  rw [hb]
  refine ⟨_, rfl, ?_⟩
  unfold getMessage
  simp only [getRec_putRec_self]

/-- Witness for C10 at the sample store: message id 42 was never stored in
chat 1, yet `updateMessage` succeeds and inserts it. -/
theorem updateMessage_upsert_witness :
    ∃ s', updateMessage wStore { wNewMsg with messageID := 42 } = .ok s' ∧
      getMessage s' 1 42 = .ok { wNewMsg with messageID := 42 } :=
  updateMessage_upsert wStore { wNewMsg with messageID := 42 }
    { recs := [(1, wUserMsg), (2, wAgentMsg), (3, wToolMsg)], seq := 3 } rfl rfl

/-- On a well-formed bucket record the key is the numeric value of the id. -/
theorem key_eq_toNat {V : Type} (idOf : V → Int) (kv : Nat × V)
    (hk : kv.1 = itob (idOf kv.2)) (h0 : 0 ≤ idOf kv.2)
    (h1 : idOf kv.2 < 2 ^ 64) : kv.1 = (idOf kv.2).toNat := by
  rw [hk]
  unfold itob
  rw [Int.emod_eq_of_lt h0 h1]

/-- C9: `listNodes` and `listEdges` are pure queries — applied twice with
no intervening mutation they return identical sequences — and on a store
whose graph buckets are well-formed (keys sorted, each key the big-endian
encoding of the record's non-negative id, as every store reachable through
the repository API is) the returned sequence is strictly ascending by
record id. -/
theorem listNodes_listEdges_pure_ascending (s : Store) (t : String)
    (f : EdgeFilter)
    (hns : s.nodes.recs.Pairwise (fun a b => a.1 < b.1))
    (hnk : ∀ kv ∈ s.nodes.recs,
      kv.1 = itob kv.2.id ∧ 0 ≤ kv.2.id ∧ kv.2.id < 2 ^ 64)
    (hes : s.edges.recs.Pairwise (fun a b => a.1 < b.1))
    (hek : ∀ kv ∈ s.edges.recs,
      kv.1 = itob kv.2.id ∧ 0 ≤ kv.2.id ∧ kv.2.id < 2 ^ 64) :
    listNodes s t = listNodes s t ∧ listEdges s f = listEdges s f ∧
    (listNodes s t).Pairwise (fun a b => a.id < b.id) ∧
    (listEdges s f).Pairwise (fun a b => a.id < b.id) := by
  refine ⟨rfl, rfl, ?_, ?_⟩
  · unfold listNodes
    apply List.Pairwise.filter
    rw [List.pairwise_map]
    apply hns.imp_of_mem
    intro a b ha hb hlt
    obtain ⟨hka, ha0, ha1⟩ := hnk a ha
    obtain ⟨hkb, hb0, hb1⟩ := hnk b hb
    have ea := key_eq_toNat GraphNode.id a hka ha0 ha1
    have eb := key_eq_toNat GraphNode.id b hkb hb0 hb1
    omega
  · unfold listEdges
    apply List.Pairwise.filter
    rw [List.pairwise_map]
    apply hes.imp_of_mem
    intro a b ha hb hlt
    obtain ⟨hka, ha0, ha1⟩ := hek a ha
    obtain ⟨hkb, hb0, hb1⟩ := hek b hb
    have ea := key_eq_toNat GraphEdge.id a hka ha0 ha1
    have eb := key_eq_toNat GraphEdge.id b hkb hb0 hb1
    omega

/-- Witness for C9 at the sample store with a type filter on nodes and an
empty (all-unset) edge filter. -/
theorem listNodes_listEdges_pure_ascending_witness :
    listNodes wStore "person" = listNodes wStore "person" ∧
    listEdges wStore { type := "", fromID := 0, toID := 0 } =
      listEdges wStore { type := "", fromID := 0, toID := 0 } ∧
    (listNodes wStore "person").Pairwise (fun a b => a.id < b.id) ∧
    (listEdges wStore { type := "", fromID := 0, toID := 0 }).Pairwise
      (fun a b => a.id < b.id) :=
  listNodes_listEdges_pure_ascending wStore "person"
    { type := "", fromID := 0, toID := 0 }
    (by decide) (by decide) (by decide) (by decide)

/-- On a well-formed message, the source translation step produces exactly
the turns the specification prescribes. -/
theorem msgTurns_valid (m : Message) (hv : validMsg m = true) :
    msgTurns m = .ok (specMsgTurns m) := by
  by_cases h1 : m.mtype = "user"
  · cases hu : m.userMsg with
    | none => exfalso; unfold validMsg at hv; simp [h1, hu] at hv
    | some u => unfold msgTurns specMsgTurns; simp [h1, hu]
  · by_cases h2 : m.mtype = "agent"
    · cases ha : m.agentMsg with
      | none => exfalso; unfold validMsg at hv; simp [h1, h2, ha] at hv
      | some a => unfold msgTurns specMsgTurns; simp [h1, h2, ha]
    · by_cases h3 : m.mtype = "tool"
      · cases ht : m.toolMsg with
        | none => exfalso; unfold validMsg at hv; simp [h1, h2, h3, ht] at hv
        | some tm =>
          unfold validMsg at hv
          simp [h1, h2, h3, ht] at hv
          have hdisj : tm.toolError ≠ "" ∨ tm.toolResult ≠ "" := by
            rcases hv with ⟨-, hne⟩
            by_cases he : tm.toolError = ""
            · right
              intro hr
              rw [he, hr] at hne
              simp at hne
            · exact Or.inl he
          unfold msgTurns specMsgTurns
          simp [h1, h2, h3, ht, hdisj]
      · exfalso; unfold validMsg at hv; simp [h1, h2, h3] at hv

/-- The translation loop concatenates the per-message spec turns in
message order. -/
theorem historyTurns_spec (ms : List Message)
    (hv : ∀ m ∈ ms, validMsg m = true) :
    historyTurns ms = .ok (ms.flatMap specMsgTurns) := by
  induction ms with
  | nil => rfl
  | cons m rest ih =>
    unfold historyTurns
    rw [msgTurns_valid m (hv m (by simp)),
        ih (fun m' h' => hv m' (by simp [h']))]
    simp

/-- C5: on a chat whose stored messages are well-formed, `getChatHistory`
returns exactly the specification's translation — each user message one
user turn, each agent message one assistant turn, each finished tool
message the assistant function-call turn immediately followed by its
function-result turn — concatenated in stored-message order, which (for a
well-formed bucket) is ascending message-id order. -/
theorem getChatHistory_translation (s : Store) (cid : Int)
    (b : Bucket Message)
    (hb : getRec (itob cid) s.messages = some b)
    (hv : ∀ m ∈ b.recs.map Prod.snd, validMsg m = true)
    (hs : b.recs.Pairwise (fun a c => a.1 < c.1))
    (hk : ∀ kv ∈ b.recs, kv.1 = itob kv.2.messageID ∧
      0 ≤ kv.2.messageID ∧ kv.2.messageID < 2 ^ 64) :
    getChatHistory s cid =
      .ok ((b.recs.map Prod.snd).flatMap specMsgTurns) ∧
    (b.recs.map Prod.snd).Pairwise
      (fun a c => a.messageID < c.messageID) := by
  constructor
  · unfold getChatHistory listMessages
    rw [hb]
    exact historyTurns_spec _ hv
  · rw [List.pairwise_map]
    apply hs.imp_of_mem
    intro a c ha hc hlt
    obtain ⟨hka, ha0, ha1⟩ := hk a ha
    obtain ⟨hkc, hc0, hc1⟩ := hk c hc
    have ea := key_eq_toNat Message.messageID a hka ha0 ha1
    have ec := key_eq_toNat Message.messageID c hkc hc0 hc1
    omega

/-- Witness for C5 at the sample store (a user, an agent, and a finished
tool message). -/
theorem getChatHistory_translation_witness :
    getChatHistory wStore 1 =
      .ok (([wUserMsg, wAgentMsg, wToolMsg] : List Message).flatMap
        specMsgTurns) ∧
    ([wUserMsg, wAgentMsg, wToolMsg] : List Message).Pairwise
      (fun a c => a.messageID < c.messageID) :=
  getChatHistory_translation wStore 1
    { recs := [(1, wUserMsg), (2, wAgentMsg), (3, wToolMsg)], seq := 3 }
    rfl (by decide) (by decide) (by decide)

/-- C8: a tool call to `get_node` with a well-typed id naming no existing
node is absorbed by dispatch: the round's `generate` returns normally
(no raised error), and the persisted tool message carries the rendered
NotFound description in `tool_error`, an empty `tool_result`, and
`done = true`. -/
theorem getNode_notFound_absorbed (s : Store) (cid k : Int)
    (b : Bucket Message)
    (hb : getRec (itob cid) s.messages = some b)
    (hv : ∀ m ∈ b.recs.map Prod.snd, validMsg m = true)
    (hn : getRec (itob k) s.nodes.recs = none) :
    ∃ s', generate s cid (.content [.toolUse "get_node" [("id", .jnum k)]]) =
      (s', .ok { chatID := cid, messageID := Int.ofNat (b.seq + 1),
                 mtype := "tool", userMsg := none, agentMsg := none,
                 toolMsg := some { toolDone := true, toolName := "get_node",
                                   toolArgs := [("id", .jnum k)],
                                   toolResult := "",
                                   toolError := (DbErr.nodeNotFound k).message } }) := by
  have hh := historyTurns_spec (b.recs.map Prod.snd) hv
  unfold generate getChatHistory listMessages createMessage
  unfold handleToolCall dispatchTool getNode updateMessage Bucket.nextSequence
  simp only [hh, hb, hn, classifyBlocks, List.foldl, List.lookup,
    getRec_putRec_self, JVal.asNum, Option.bind, Except.map]
  simp
  simp only [JVal.asNum]
  simp [hn, getRec_putRec_self]

/-- Witness for C8 at the sample store with the missing node id 999. -/
theorem getNode_notFound_absorbed_witness :
    ∃ s', generate wStore 1 (.content [.toolUse "get_node" [("id", .jnum 999)]]) =
      (s', .ok { chatID := 1, messageID := Int.ofNat 4,
                 mtype := "tool", userMsg := none, agentMsg := none,
                 toolMsg := some { toolDone := true, toolName := "get_node",
                                   toolArgs := [("id", .jnum 999)],
                                   toolResult := "",
                                   toolError := (DbErr.nodeNotFound 999).message } }) :=
  getNode_notFound_absorbed wStore 1 999
    { recs := [(1, wUserMsg), (2, wAgentMsg), (3, wToolMsg)], seq := 3 }
    rfl (by decide) rfl

/-- When the §4.4 argument schema is violated (missing required argument,
wrong primitive type, or unknown tool name), the dispatch switch returns
the corresponding error to its caller instead of producing a result. -/
theorem dispatchTool_validation (s : Store) (tm : ToolPayload)
    (e : ToolCallErr) (hval : requiredArgViolation tm = some e) :
    dispatchTool s tm = .error e := by
  unfold dispatchTool
  unfold requiredArgViolation at hval
  by_cases h1 : tm.toolName = "get_node"
  · simp only [h1, true_or, if_true] at hval ⊢
    cases hl : (tm.toolArgs.lookup "id").bind JVal.asNum with
    | none => rw [hl] at hval; simp at hval; simp [hval]
    | some v => rw [hl] at hval; simp at hval
  · by_cases h2 : tm.toolName = "list_nodes"
    · simp [h1, h2] at hval
    · by_cases h3 : tm.toolName = "create_node"
      · simp [h1, h2, h3] at hval ⊢
        cases hl : (tm.toolArgs.lookup "type").bind JVal.asStr with
        | none => rw [hl] at hval; simp at hval; simp [hval]
        | some v => rw [hl] at hval; simp at hval
      · by_cases h4 : tm.toolName = "delete_node"
        · simp [h1, h2, h3, h4] at hval ⊢
          cases hl : (tm.toolArgs.lookup "id").bind JVal.asNum with
          | none => rw [hl] at hval; simp at hval; simp [hval]
          | some v => rw [hl] at hval; simp at hval
        · by_cases h5 : tm.toolName = "get_edge"
          · simp [h1, h2, h3, h4, h5] at hval ⊢
            cases hl : (tm.toolArgs.lookup "id").bind JVal.asNum with
            | none => rw [hl] at hval; simp at hval; simp [hval]
            | some v => rw [hl] at hval; simp at hval
          · by_cases h6 : tm.toolName = "list_edges"
            · simp [h1, h2, h3, h4, h5, h6] at hval
            · by_cases h7 : tm.toolName = "create_edge"
              · simp [h1, h2, h3, h4, h5, h6, h7] at hval ⊢
                cases hl : (tm.toolArgs.lookup "type").bind JVal.asStr with
                | none => rw [hl] at hval; simp at hval; simp [hval]
                | some v =>
                  rw [hl] at hval
                  cases hf : (tm.toolArgs.lookup "from_id").bind JVal.asNum with
                  | none => rw [hf] at hval; simp at hval; simp [hval]
                  | some w =>
                    rw [hf] at hval
                    cases hg : (tm.toolArgs.lookup "to_id").bind JVal.asNum with
                    | none => rw [hg] at hval; simp at hval; simp [hval]
                    | some u => rw [hg] at hval; simp at hval
              · by_cases h8 : tm.toolName = "delete_edge"
                · simp [h1, h2, h3, h4, h5, h6, h7, h8] at hval ⊢
                  cases hl : (tm.toolArgs.lookup "id").bind JVal.asNum with
                  | none => rw [hl] at hval; simp at hval; simp [hval]
                  | some v => rw [hl] at hval; simp at hval
                · simp [h1, h2, h3, h4, h5, h6, h7, h8] at hval ⊢
                  simp [hval]

/-- C3 counterexample: the model requests `get_node` with no arguments; the
round aborts with the raised invalid-parameter error — it is not returned
to the model as the tool result — and the persisted tool message still has
an empty error field (`done` still false): the validation failure was not
recorded into it. -/
theorem toolValidation_aborts_round_cex :
    (generate wStore 1 (.content [.toolUse "get_node" []])).2 =
      .error (.toolCall (.invalidParam "id")) ∧
    getMessage (generate wStore 1 (.content [.toolUse "get_node" []])).1 1 4 =
      .ok { chatID := 1, messageID := 4, mtype := "tool", userMsg := none,
            agentMsg := none,
            toolMsg := some { toolDone := false, toolName := "get_node",
                              toolArgs := [], toolResult := "",
                              toolError := "" } } :=
  ⟨rfl, rfl⟩

/-- C3 amended: for every tool-kind message whose arguments are missing a
required field or carry a value of the wrong primitive type, dispatching
it returns the validation error to the caller of the dispatch loop — the
generation round aborts — and nothing is recorded in the tool message's
error field (only repository errors from well-typed calls are recorded
there). -/
theorem toolValidation_raised (s : Store) (m : Message) (tm : ToolPayload)
    (e : ToolCallErr)
    (hmt : m.mtype = "tool") (hpm : m.toolMsg = some tm)
    (hval : requiredArgViolation tm = some e) :
    handleToolCall s m = .error e := by
  have hval2 : requiredArgViolation { tm with toolDone := true } = some e := by
    rw [show requiredArgViolation { tm with toolDone := true } =
      requiredArgViolation tm from rfl]
    exact hval
  have hd := dispatchTool_validation s { tm with toolDone := true } e hval2
  unfold handleToolCall
  rw [hpm]
  simp [hmt, hd]

/-- Witness for the amended C3: a `get_node` tool message with no
arguments. -/
theorem toolValidation_raised_witness :
    handleToolCall wStore
      { chatID := 1, messageID := 5, mtype := "tool", userMsg := none,
        agentMsg := none,
        toolMsg := some { toolDone := false, toolName := "get_node",
                          toolArgs := [], toolResult := "",
                          toolError := "" } } =
      .error (.invalidParam "id") :=
  toolValidation_raised wStore _ _ _ rfl rfl rfl

/-- `createMessage` writes only to the message partition. -/
theorem createMessage_chats (s : Store) (m : Message) (p : Store × Message)
    (h : createMessage s m = .ok p) : p.1.chats = s.chats := by
  unfold createMessage at h
  cases hb : getRec (itob m.chatID) s.messages with
  | none => rw [hb] at h; cases h
  | some b =>
    rw [hb] at h
    simp only [Except.ok.injEq] at h
    rw [← h]

/-- `updateMessage` writes only to the message partition. -/
theorem updateMessage_chats (s : Store) (m : Message) (s' : Store)
    (h : updateMessage s m = .ok s') : s'.chats = s.chats := by
  unfold updateMessage at h
  cases hb : getRec (itob m.chatID) s.messages with
  | none => rw [hb] at h; cases h
  | some b =>
    rw [hb] at h
    simp only [Except.ok.injEq] at h
    rw [← h]

/-- `createEdge` writes only to the edge partition. -/
theorem createEdge_chats (s : Store) (t : String) (f g : Int)
    (p : Store × GraphEdge) (h : createEdge s t f g = .ok p) :
    p.1.chats = s.chats := by
  unfold createEdge at h
  split at h
  · cases h
  · cases h
  · simp only [Except.ok.injEq] at h
    rw [← h]

/-- No tool handler writes to the chat index. -/
theorem dispatchTool_chats (s : Store) (tm : ToolPayload)
    (p : Store × Except DbErr ToolOut) (h : dispatchTool s tm = .ok p) :
    p.1.chats = s.chats := by
  unfold dispatchTool at h
  repeat' split at h
  all_goals cases h
  any_goals exact rfl
  all_goals (rename_i heq; exact createEdge_chats _ _ _ _ _ heq)

/-- `handleToolCall` never writes to the chat index. -/
theorem handleToolCall_chats (s : Store) (m : Message) (p : Store × Message)
    (h : handleToolCall s m = .ok p) : p.1.chats = s.chats := by
  unfold handleToolCall at h
  simp only [] at h
  split at h
  · cases h
  · split at h
    · cases h
    · split at h
      next e heq => cases h
      next s1 repoErr heq =>
        split at h
        next e2 heq2 => cases h
        next s2 heq2 =>
          cases h
          have h1 := dispatchTool_chats _ _ _ heq
          have h2 := updateMessage_chats _ _ _ heq2
          exact h2.trans h1
      next s1 out heq =>
        split at h
        next e2 heq2 => cases h
        next s2 heq2 =>
          cases h
          have h1 := dispatchTool_chats _ _ _ heq
          have h2 := updateMessage_chats _ _ _ heq2
          exact h2.trans h1

/-- A generation round never writes to the chat index (on any outcome),
so the chat record read by the final state update is the one the worker
wrote on entry. -/
theorem generate_chats (s : Store) (cid : Int) (pr : ProviderResult) :
    (generate s cid pr).1.chats = s.chats := by
  unfold generate
  simp only []
  split
  · rfl
  · split
    · rfl
    · split
      next heq => rfl
      next s1 m1 heq =>
        split
        · split
          next e heq2 => exact createMessage_chats _ _ _ heq
          next s2 m2 heq2 =>
            have h1 := createMessage_chats _ _ _ heq
            have h2 := handleToolCall_chats _ _ _ heq2
            exact h2.trans h1
        · exact createMessage_chats _ _ _ heq

/-- C4: for every existing chat, the worker round sets the chat state to
`running` on entry and back to `idle` on every exit path — normal
completion, provider-transport failure, or history-read failure — before
the completion notification (which names the chat) is produced: the state
is never left `running` after the round returns. -/
theorem workerRound_restores_idle (s : Store) (cid : Int)
    (pr : ProviderResult) (ci : ChatInfo)
    (hc : getRec (itob cid) s.chats.recs = some ci) (hid : ci.id = cid) :
    getRec (itob cid) (workerRound s cid pr).1.chats.recs =
      some { id := ci.id, name := ci.name, state := "idle" } ∧
    (workerRound s cid pr).2.chatID = cid := by
  have hrun : updateChatState s cid "running" =
      .ok { s with chats := { s.chats with
        recs := putRec (itob ci.id) { ci with state := "running" }
          s.chats.recs } } := by
    unfold updateChatState
    rw [if_neg (by simp), hc]
  unfold workerRound
  rw [hrun]
  simp only []
  rcases hg : generate { s with chats := { s.chats with
      recs := putRec (itob ci.id) { ci with state := "running" }
        s.chats.recs } } cid pr with ⟨sg, rg⟩
  have hchats := generate_chats { s with chats := { s.chats with
      recs := putRec (itob ci.id) { ci with state := "running" }
        s.chats.recs } } cid pr
  rw [hg] at hchats
  have hgetg : getRec (itob cid) sg.chats.recs =
      some { ci with state := "running" } := by
    rw [hchats]
    simp only [← hid, getRec_putRec_self]
  have hidle : updateChatState sg cid "idle" =
      .ok { sg with chats := { sg.chats with
        recs := putRec (itob ci.id) { ci with state := "idle" }
          sg.chats.recs } } := by
    unfold updateChatState
    rw [if_neg (by simp), hgetg]
  cases rg with
  | error e =>
    simp only []
    rw [hidle]
    constructor
    · simp only [← hid, getRec_putRec_self]
    · rfl
  | ok m =>
    simp only []
    rw [hidle]
    constructor
    · simp only [← hid, getRec_putRec_self]
    · rfl

/-- Witness for C4 at the sample store with a provider-transport failure:
the chat still ends `idle`. -/
theorem workerRound_restores_idle_witness :
    getRec (itob 1) (workerRound wStore 1 .transportError).1.chats.recs =
      some { id := 1, name := "c1", state := "idle" } ∧
    (workerRound wStore 1 .transportError).2.chatID = 1 :=
  workerRound_restores_idle wStore 1 .transportError wChat rfl rfl
